import Mathlib

/-!
A verification development for the `datascience_core.data_transformation` module:
a shallow embedding of its transformers (pandas DataFrames become association
lists of named columns of cells, floats become rationals, raised exceptions
become `Option.none`, and in-place mutation of an argument becomes explicit
state passing that returns the argument's final value), together with theorems
about the embedded operations.
-/

/-- A single cell of a tabular dataset: a string, a numeric value, or the
missing-value marker (pandas `NaN`). -/
inductive Cell where
  | str (s : String)
  | num (q : ℚ)
  | missing
deriving DecidableEq

/-- A dataset: an ordered association list of named columns. -/
abbrev Frame := List (String × List Cell)

/-- Column lookup, `df[col]`; `none` models a raised `KeyError`. -/
def Frame.getCol (df : Frame) (n : String) : Option (List Cell) :=
  (df.find? (fun p => p.1 == n)).map (fun p => p.2)

/-- Column assignment `df[col] = cells` for an existing column `col`. -/
def Frame.setCol (df : Frame) (n : String) (cells : List Cell) : Frame :=
  df.map (fun p => if p.1 == n then (p.1, cells) else p)

/-- Membership test `col in df.columns`. -/
def Frame.hasCol (df : Frame) (n : String) : Bool :=
  df.any (fun p => p.1 == n)

/-- Model of `df.size`: the number of cells in the frame. -/
def Frame.size (df : Frame) : ℕ :=
  (df.map (fun p => p.2.length)).sum

/-- Model of `len(df)`: the number of rows. -/
def Frame.nrows : Frame → ℕ
  | [] => 0
  | c :: _ => c.2.length

/-- Keep the cells whose mask entry is `true` (pandas boolean indexing). -/
def maskFilter (mask : List Bool) (cells : List Cell) : List Cell :=
  ((mask.zip cells).filter (fun p => p.1)).map (fun p => p.2)

/-- Row filtering of a whole frame by a boolean mask. -/
def Frame.filterRows (df : Frame) (mask : List Bool) : Frame :=
  df.map (fun p => (p.1, maskFilter mask p.2))

/-- Does the character list `pat` match the front of the second list? -/
def leadMatch : List Char → List Char → Bool
  | [], _ => true
  | _ :: _, [] => false
  | p :: ps, c :: cs => p == c && leadMatch ps cs

/-- Does `pat` occur contiguously anywhere in the list? -/
def hasSubstr (pat : List Char) : List Char → Bool
  | [] => leadMatch pat []
  | c :: rest => leadMatch pat (c :: rest) || hasSubstr pat rest

/-- Python's substring test `pat in s`. -/
def strContains (s pat : String) : Bool :=
  hasSubstr pat.data s.data

/-- Parse a nonempty all-digit character list as a natural number. -/
def parseDigits (cs : List Char) : Option ℕ :=
  if cs ≠ [] ∧ cs.all Char.isDigit then
    some (cs.foldl (fun n c => 10 * n + (c.toNat - Char.toNat (Char.ofNat 48))) 0)
  else none

/-- Embedding of `is_data_size_small` from `_transformers.py`: is the frame smaller than
100,000,000 cells? -/
def is_data_size_small (data_object : Frame) : Bool :=
  if Frame.size data_object < 100000000 then true else false

/-- A tier-boundary dictionary: the six caller-supplied boundaries
`Tier1`..`Tier6`, plus an optional `Tier7` entry (the code inserts
`Tier7 = 1.0` itself; a freshly constructed dictionary usually lacks it). -/
structure TierDict where
  t1 : ℚ
  t2 : ℚ
  t3 : ℚ
  t4 : ℚ
  t5 : ℚ
  t6 : ℚ
  t7 : Option ℚ
deriving DecidableEq

/-- The assignment `d["Tier7"] = 1.0` performed inside `_unmap_score` and
`map_score` on the caller-supplied dictionary. -/
def TierDict.setTier7 (d : TierDict) : TierDict :=
  { d with t7 := some 1 }

/-- The §3 invariant on a boundary scheme: strictly increasing values in
`(0,1)`. -/
def ValidBoundaries (d : TierDict) : Prop :=
  0 < d.t1 ∧ d.t1 < d.t2 ∧ d.t2 < d.t3 ∧ d.t3 < d.t4 ∧ d.t4 < d.t5 ∧
    d.t5 < d.t6 ∧ d.t6 < 1

instance (d : TierDict) : Decidable (ValidBoundaries d) := by
  unfold ValidBoundaries; infer_instance

/-- Structure `TierMapper`: holds the two caller-supplied boundary dictionaries
(`__init__` stores references to them without copying). -/
structure TierMapper where
  previous_tier_boundaries : TierDict
  new_tier_boundaries : TierDict
deriving DecidableEq

namespace TierMapper

/-- Embedding of `TierMapper._unmap_score`: first sets `raw_score_boundaries_dict["Tier7"] = 1.0`,
then interpolates the score from the fixed boundary space
(`0.25, 0.4, 0.5, 0.6, 0.65, 0.75, 1.0`) into the dictionary's space.
Returns the value together with the final state of the (mutated)
caller-supplied dictionary. The `Tier7` branch multiplies by
`raw_score_boundaries_dict["Tier7"] - ... = 1 - d.t6`, `Tier7` having just
been set to `1.0`. -/
def _unmap_score (AD_score : ℚ) (raw_score_boundaries_dict : TierDict) :
    ℚ × TierDict :=
  let d := TierDict.setTier7 raw_score_boundaries_dict
  (if AD_score ≤ 0.25 then AD_score / 0.25 * d.t1
   else if AD_score ≤ 0.4 then
     (AD_score - 0.25) / (0.4 - 0.25) * (d.t2 - d.t1) + d.t1
   else if AD_score ≤ 0.5 then
     (AD_score - 0.4) / (0.5 - 0.4) * (d.t3 - d.t2) + d.t2
   else if AD_score ≤ 0.6 then
     (AD_score - 0.5) / (0.6 - 0.5) * (d.t4 - d.t3) + d.t3
   else if AD_score ≤ 0.65 then
     (AD_score - 0.6) / (0.65 - 0.6) * (d.t5 - d.t4) + d.t4
   else if AD_score ≤ 0.75 then
     (AD_score - 0.65) / (0.75 - 0.65) * (d.t6 - d.t5) + d.t5
   else if AD_score ≤ 1 then
     (AD_score - 0.75) / (1 - 0.75) * (1 - d.t6) + d.t6
   else AD_score,
   d)

/-- Embedding of `TierMapper.map_score`: first sets `raw_boundaries["Tier7"] = 1.0`, then
interpolates the score from the dictionary's space into the fixed boundary
space. Returns the value together with the final state of the (mutated)
caller-supplied dictionary. -/
def map_score (AD_raw_score : ℚ) (raw_boundaries : TierDict) : ℚ × TierDict :=
  let d := TierDict.setTier7 raw_boundaries
  (if AD_raw_score ≤ d.t1 then AD_raw_score / d.t1 * 0.25
   else if AD_raw_score ≤ d.t2 then
     (AD_raw_score - d.t1) / (d.t2 - d.t1) * (0.4 - 0.25) + 0.25
   else if AD_raw_score ≤ d.t3 then
     (AD_raw_score - d.t2) / (d.t3 - d.t2) * (0.5 - 0.4) + 0.4
   else if AD_raw_score ≤ d.t4 then
     (AD_raw_score - d.t3) / (d.t4 - d.t3) * (0.6 - 0.5) + 0.5
   else if AD_raw_score ≤ d.t5 then
     (AD_raw_score - d.t4) / (d.t5 - d.t4) * (0.65 - 0.6) + 0.6
   else if AD_raw_score ≤ d.t6 then
     (AD_raw_score - d.t5) / (d.t6 - d.t5) * (0.75 - 0.65) + 0.65
   else (AD_raw_score - d.t6) / (1 - d.t6) * (1 - 0.75) + 0.75,
   d)

/-- Embedding of `TierMapper.process`: unmap with the previous boundaries, then map with the
new boundaries. Returns the remapped score together with the final state of
the mapper's (aliased, caller-supplied) configuration dictionaries. -/
def process (self : TierMapper) (AD_score : ℚ) : ℚ × TierMapper :=
  let r1 := _unmap_score AD_score self.previous_tier_boundaries
  let r2 := map_score r1.1 self.new_tier_boundaries
  (r2.1, ⟨r1.2, r2.2⟩)

/-- The inner `for` loop of `score_to_tier`: scan segments
`(limits[i], limits[i+1]]` in order and return the first matching tier name;
`none` models the final `raise ValueError`. -/
def scanTiers (score : ℚ) : List String → List ℚ → Option String
  | name :: names, l0 :: l1 :: ls =>
      if score ≤ l1 ∧ score > l0 then some name
      else scanTiers score names (l1 :: ls)
  | _, _ => none

/-- The sort key of `sorted(tier_boundaries.items(), key=lambda item: item[1])`. -/
def byBoundaryValue (a b : String × ℚ) : Prop := a.2 ≤ b.2

instance : DecidableRel byBoundaryValue :=
  fun a b => inferInstanceAs (Decidable (a.2 ≤ b.2))

/-- Embedding of `TierMapper.score_to_tier`: sort the boundary items by value, append the
implicit `Tier7` name, surround the limits with `0.0` and `1.0`, and scan for
the segment containing the score. The dictionary is modelled as an
insertion-ordered association list. -/
def score_to_tier (score : ℚ) (tier_boundaries : List (String × ℚ)) :
    Option String :=
  let sorted_items := tier_boundaries.insertionSort byBoundaryValue
  let tier_names := sorted_items.map Prod.fst ++ ["Tier7"]
  let limits := 0 :: sorted_items.map Prod.snd ++ [1]
  scanTiers score tier_names limits

end TierMapper

/-- The value of `_unmap_score` (its first component). -/
def unmapVal (x : ℚ) (d : TierDict) : ℚ :=
  (TierMapper._unmap_score x d).1

/-- The value of `map_score` (its first component). -/
def mapVal (x : ℚ) (d : TierDict) : ℚ :=
  (TierMapper.map_score x d).1

/-- The value returned by `TierMapper.process` (its first component). -/
def processVal (m : TierMapper) (x : ℚ) : ℚ :=
  (TierMapper.process m x).1

/-- Elementwise `series.replace(to_replace, value)` on one cell: if the cell
equals the i-th entry of `to_replace`, substitute the i-th entry of `value`. -/
def replaceCell (to_replace value : List Cell) (c : Cell) : Cell :=
  match (to_replace.zip value).find? (fun p => p.1 == c) with
  | some p => p.2
  | none => c

/-- Model of `series.replace(to_replace, value)` with list arguments (elementwise). -/
def seriesReplace (s : List Cell) (to_replace value : List Cell) : List Cell :=
  s.map (replaceCell to_replace value)

/-- Models `pd.to_numeric(x, errors="coerce")` on one cell of the insight-code
alphabet: numbers pass through, nonnegative-integer strings parse, any other
string coerces to missing. -/
def to_numeric_coerce : Cell → Cell
  | .num q => .num q
  | .missing => .missing
  | .str s =>
      match parseDigits s.data with
      | some n => .num (n : ℚ)
      | none => .missing

/-- Structure `CategoricalColumnSplitter`: the configured list of columns to split. -/
structure CategoricalColumnSplitter where
  categorical_columns_to_split : List String

namespace CategoricalColumnSplitter

/-- Embedding of `CategoricalColumnSplitter._split_categorical_column`: replace the letter
codes in the numeric channel, coerce it to numbers, blank the small digits and
default the large digits in the categorical channel. Returns
`(cat_series, numerical_series)`. -/
def _split_categorical_column (col_series : List Cell)
    (force_numeric : Bool := true) : List Cell × List Cell :=
  let numerical_series :=
    seriesReplace col_series
      [.str "D", .str "R", .str "V", .str "S", .str "A"]
      [.num 5, .num 6, .num 6, .num 0, .num 2]
  let numerical_series :=
    if force_numeric then numerical_series.map to_numeric_coerce
    else numerical_series
  let cat_series :=
    seriesReplace col_series [.str "0", .str "1", .str "2"]
      [.missing, .missing, .missing]
  let cat_series :=
    seriesReplace cat_series [.str "3", .str "4", .str "5", .str "6"]
      [.str "D", .str "D", .str "D", .str "D"]
  (cat_series, numerical_series)

/-- The `for` loop of `CategoricalColumnSplitter.process`: for each configured
column whose name contains `"QCB"`, overwrite it with the categorical channel
and record the numeric channel under the `_num`-suffixed name. -/
def processLoop (cols : List String) (df : Frame) (num_dict : Frame) :
    Option (Frame × Frame) :=
  match cols with
  | [] => some (df, num_dict)
  | col :: rest =>
      if strContains col "QCB" then
        match Frame.getCol df col with
        | none => none
        | some cells =>
            let p := _split_categorical_column cells
            processLoop rest (Frame.setCol df col p.1)
              (num_dict ++ [(col ++ "_num", p.2)])
      else processLoop rest df num_dict

/-- Embedding of `CategoricalColumnSplitter.process`: run the loop, then concatenate the
collected numeric columns onto the frame (`pd.concat(..., axis=1)`). -/
def process (self : CategoricalColumnSplitter) (df_in : Frame) : Option Frame :=
  match processLoop self.categorical_columns_to_split df_in [] with
  | none => none
  | some p => some (p.1 ++ p.2)

end CategoricalColumnSplitter

/-- The numeric channel of the §4.3 encoding table, as the spec words it
(spec-side definition, for comparison with the source-side splitter). -/
def spec_num_channel : Cell → Cell
  | .str "0" => .num 0
  | .str "1" => .num 1
  | .str "2" => .num 2
  | .str "3" => .num 3
  | .str "4" => .num 4
  | .str "5" => .num 5
  | .str "6" => .num 6
  | .str "D" => .num 5
  | .str "R" => .num 6
  | .str "V" => .num 6
  | .str "S" => .num 0
  | .str "A" => .num 2
  | _ => .missing

/-- The categorical channel of the §4.3 encoding table, as the spec words it. -/
def spec_cat_channel : Cell → Cell
  | .str "0" => .missing
  | .str "1" => .missing
  | .str "2" => .missing
  | .str "3" => .str "D"
  | .str "4" => .str "D"
  | .str "5" => .str "D"
  | .str "6" => .str "D"
  | .str "D" => .str "D"
  | c => c

/-- The closed per-domain-convention alphabet of insight codes (§3): digits
`0`-`6` and the special account-state letters. -/
def closedAlphabet : List Cell :=
  [.str "0", .str "1", .str "2", .str "3", .str "4", .str "5", .str "6",
   .str "D", .str "R", .str "V", .str "S", .str "A", .str "C", .str "M",
   .str "T", .str "U", .str "N", .str "Q", .str "Z", .str ".", .str "I"]

/-- Models `pd.to_datetime(x, format=...)` on one cell: numeric timestamps pass
through, digit strings parse to timestamps, anything unparseable raises
(`none`), and missing stays missing (`NaT`). -/
def to_datetime_cell : Cell → Option Cell
  | .num q => some (.num q)
  | .missing => some .missing
  | .str s => (parseDigits s.data).map (fun n => Cell.num (n : ℚ))

/-- Model of `pd.to_datetime` over a whole column. -/
def seriesToDatetime : List Cell → Option (List Cell)
  | [] => some []
  | c :: cs =>
      match to_datetime_cell c, seriesToDatetime cs with
      | some c', some cs' => some (c' :: cs')
      | _, _ => none

/-- The elementwise comparison `cell >= t` (missing compares `False`). -/
def cellGe (c : Cell) (t : ℚ) : Bool :=
  match c with
  | .num q => decide (t ≤ q)
  | _ => false

/-- The elementwise comparison `cell <= t` (missing compares `False`). -/
def cellLe (c : Cell) (t : ℚ) : Bool :=
  match c with
  | .num q => decide (q ≤ t)
  | _ => false

/-- Structure `DataFrameTimeSlicer`: configuration (times are modelled as rational
timestamps; construction-time type validation is vacuous in the model). -/
structure DataFrameTimeSlicer where
  col_name_for_time : String
  min_time : ℚ
  max_time : ℚ
  convert_to_datetime_format : String

/-- Embedding of `DataFrameTimeSlicer.process`: when a conversion format is configured, the
time column is converted and assigned back into the caller's frame (in-place
mutation, with no size check and no copy); then the rows inside the inclusive
date range are returned. Returns `(returned slice, final state of the caller's
frame)`; `none` models a raised exception. -/
def DataFrameTimeSlicer.process (self : DataFrameTimeSlicer) (data : Frame) :
    Option (Frame × Frame) :=
  let converted : Option Frame :=
    if self.convert_to_datetime_format ≠ "" then
      match Frame.getCol data self.col_name_for_time with
      | none => none
      | some cells =>
          match seriesToDatetime cells with
          | none => none
          | some cs => some (Frame.setCol data self.col_name_for_time cs)
    else some data
  match converted with
  | none => none
  | some data =>
      match Frame.getCol data self.col_name_for_time with
      | none => none
      | some cells =>
          let mask :=
            cells.map (fun c => cellGe c self.min_time && cellLe c self.max_time)
          some (Frame.filterRows data mask, data)

/-- Structure `MissingColumnReplacer`: expected columns and the fill value. -/
structure MissingColumnReplacer where
  expected_columns : List String
  fill_value : Cell

/-- Embedding of `MissingColumnReplacer.process`: work on a deep copy when the frame is
small (`is_data_size_small`), otherwise on the caller's frame directly (with a
printed warning); append each missing expected column filled with the fill
value. Returns `(returned frame, final state of the caller's frame)`: below
the size threshold the caller's frame is the untouched original, at or above
it the caller's frame aliases the result. -/
def MissingColumnReplacer.process (self : MissingColumnReplacer) (df : Frame) :
    Frame × Frame :=
  let missing_cols := self.expected_columns.filter (fun x => !(Frame.hasCol df x))
  let df_out :=
    missing_cols.foldl
      (fun acc col => acc ++ [(col, List.replicate (Frame.nrows df) self.fill_value)])
      df
  (df_out, if is_data_size_small df then df else df_out)

/-- The merge key of the fan-out executor: column name order. -/
def byColName (p q : String × List Cell) : Prop := p.1 ≤ q.1

instance : DecidableRel byColName :=
  fun p q => inferInstanceAs (Decidable (p.1 ≤ q.1))

/-- Modelled from the spec: `run_pipeline_with_multi_threading` is defined in
`_data_pipe.py`, which is not among the provided sources (only re-exported by
`__init__.py`). Per §4.1, independent branches are applied concurrently to
copies of the same input dataset and their column-wise results are merged by a
deterministic column union keyed by column name, independent of branch
completion order; the union is modelled as the name-sorted concatenation of
the branch results. -/
def run_pipeline_with_multi_threading (branches : List (Frame → Frame))
    (df : Frame) : Frame :=
  ((branches.map (fun b => b df)).flatten).insertionSort byColName

/-! ## Helper lemmas about affine segment interpolation -/

lemma ramp_mono {c1 c2 v1 v2 x y : ℚ} (hc : c1 < c2) (hv : v1 ≤ v2) (hxy : x ≤ y) :
    (x - c1) / (c2 - c1) * (v2 - v1) + v1 ≤ (y - c1) / (c2 - c1) * (v2 - v1) + v1 := by
  have hden : (0:ℚ) < c2 - c1 := by linarith
  have h1 : (x - c1) / (c2 - c1) ≤ (y - c1) / (c2 - c1) := by
    rw [div_le_div_iff hden hden]
    exact mul_le_mul_of_nonneg_right (by linarith) (le_of_lt hden)
  have h2 := mul_le_mul_of_nonneg_right h1 (show (0:ℚ) ≤ v2 - v1 by linarith)
  linarith

lemma ramp_le {c1 c2 v1 v2 x : ℚ} (hc : c1 < c2) (hv : v1 ≤ v2) (hx : x ≤ c2) :
    (x - c1) / (c2 - c1) * (v2 - v1) + v1 ≤ v2 := by
  have hden : (0:ℚ) < c2 - c1 := by linarith
  have h1 : (x - c1) / (c2 - c1) ≤ 1 := by
    rw [div_le_one hden]; linarith
  have h2 := mul_le_mul_of_nonneg_right h1 (show (0:ℚ) ≤ v2 - v1 by linarith)
  rw [one_mul] at h2
  linarith

lemma ramp_ge {c1 c2 v1 v2 x : ℚ} (hc : c1 < c2) (hv : v1 ≤ v2) (hx : c1 ≤ x) :
    v1 ≤ (x - c1) / (c2 - c1) * (v2 - v1) + v1 := by
  have h1 : 0 ≤ (x - c1) / (c2 - c1) := div_nonneg (by linarith) (by linarith)
  have h2 : 0 ≤ (x - c1) / (c2 - c1) * (v2 - v1) := mul_nonneg h1 (by linarith)
  linarith

lemma ramp_gt {c1 c2 v1 v2 x : ℚ} (hc : c1 < c2) (hx : c1 < x) (hv : v1 < v2) :
    v1 < (x - c1) / (c2 - c1) * (v2 - v1) + v1 := by
  have h1 : 0 < (x - c1) / (c2 - c1) := div_pos (by linarith) (by linarith)
  have h2 : 0 < (x - c1) / (c2 - c1) * (v2 - v1) := mul_pos h1 (by linarith)
  linarith

lemma lin0_mono {c v x y : ℚ} (hc : 0 < c) (hv : 0 ≤ v) (hxy : x ≤ y) :
    x / c * v ≤ y / c * v := by
  have h1 : x / c ≤ y / c := by
    rw [div_le_div_iff hc hc]
    exact mul_le_mul_of_nonneg_right hxy (le_of_lt hc)
  exact mul_le_mul_of_nonneg_right h1 hv

lemma lin0_le {c v x : ℚ} (hc : 0 < c) (hv : 0 ≤ v) (hx : x ≤ c) :
    x / c * v ≤ v := by
  have h1 : x / c ≤ 1 := by rw [div_le_one hc]; linarith
  have h2 := mul_le_mul_of_nonneg_right h1 hv
  rw [one_mul] at h2
  exact h2

/-! ## Unfolding lemmas for the interpolation passes -/

lemma unmapVal_def (x : ℚ) (d : TierDict) :
    unmapVal x d =
      (if x ≤ 0.25 then x / 0.25 * d.t1
       else if x ≤ 0.4 then (x - 0.25) / (0.4 - 0.25) * (d.t2 - d.t1) + d.t1
       else if x ≤ 0.5 then (x - 0.4) / (0.5 - 0.4) * (d.t3 - d.t2) + d.t2
       else if x ≤ 0.6 then (x - 0.5) / (0.6 - 0.5) * (d.t4 - d.t3) + d.t3
       else if x ≤ 0.65 then (x - 0.6) / (0.65 - 0.6) * (d.t5 - d.t4) + d.t4
       else if x ≤ 0.75 then (x - 0.65) / (0.75 - 0.65) * (d.t6 - d.t5) + d.t5
       else if x ≤ 1 then (x - 0.75) / (1 - 0.75) * (1 - d.t6) + d.t6
       else x) := rfl

lemma mapVal_def (x : ℚ) (d : TierDict) :
    mapVal x d =
      (if x ≤ d.t1 then x / d.t1 * 0.25
       else if x ≤ d.t2 then (x - d.t1) / (d.t2 - d.t1) * (0.4 - 0.25) + 0.25
       else if x ≤ d.t3 then (x - d.t2) / (d.t3 - d.t2) * (0.5 - 0.4) + 0.4
       else if x ≤ d.t4 then (x - d.t3) / (d.t4 - d.t3) * (0.6 - 0.5) + 0.5
       else if x ≤ d.t5 then (x - d.t4) / (d.t5 - d.t4) * (0.65 - 0.6) + 0.6
       else if x ≤ d.t6 then (x - d.t5) / (d.t6 - d.t5) * (0.75 - 0.65) + 0.65
       else (x - d.t6) / (1 - d.t6) * (1 - 0.75) + 0.75) := rfl

lemma processVal_eq (m : TierMapper) (x : ℚ) :
    processVal m x =
      mapVal (unmapVal x m.previous_tier_boundaries) m.new_tier_boundaries := rfl

/-! ## Lower bounds for `mapVal` past each boundary -/

lemma mapVal_lo6 {d : TierDict} (hd : ValidBoundaries d) {y : ℚ} (hy : d.t6 < y) :
    (0.75:ℚ) ≤ mapVal y d := by
  obtain ⟨h1, h12, h23, h34, h45, h56, h61⟩ := hd
  rw [mapVal_def, if_neg (not_le.mpr (by linarith)), if_neg (not_le.mpr (by linarith)),
    if_neg (not_le.mpr (by linarith)), if_neg (not_le.mpr (by linarith)),
    if_neg (not_le.mpr (by linarith)), if_neg (not_le.mpr hy)]
  exact ramp_ge (by linarith) (by norm_num) (le_of_lt hy)

lemma mapVal_lo5 {d : TierDict} (hd : ValidBoundaries d) {y : ℚ} (hy : d.t5 < y) :
    (0.65:ℚ) ≤ mapVal y d := by
  obtain ⟨h1, h12, h23, h34, h45, h56, h61⟩ := id hd
  rcases le_or_lt y d.t6 with h | h
  · rw [mapVal_def, if_neg (not_le.mpr (by linarith)), if_neg (not_le.mpr (by linarith)),
      if_neg (not_le.mpr (by linarith)), if_neg (not_le.mpr (by linarith)),
      if_neg (not_le.mpr hy), if_pos h]
    exact ramp_ge (by linarith) (by norm_num) (le_of_lt hy)
  · linarith [mapVal_lo6 hd h]

lemma mapVal_lo4 {d : TierDict} (hd : ValidBoundaries d) {y : ℚ} (hy : d.t4 < y) :
    (0.6:ℚ) ≤ mapVal y d := by
  obtain ⟨h1, h12, h23, h34, h45, h56, h61⟩ := id hd
  rcases le_or_lt y d.t5 with h | h
  · rw [mapVal_def, if_neg (not_le.mpr (by linarith)), if_neg (not_le.mpr (by linarith)),
      if_neg (not_le.mpr (by linarith)), if_neg (not_le.mpr hy), if_pos h]
    exact ramp_ge (by linarith) (by norm_num) (le_of_lt hy)
  · linarith [mapVal_lo5 hd h]

lemma mapVal_lo3 {d : TierDict} (hd : ValidBoundaries d) {y : ℚ} (hy : d.t3 < y) :
    (0.5:ℚ) ≤ mapVal y d := by
  obtain ⟨h1, h12, h23, h34, h45, h56, h61⟩ := id hd
  rcases le_or_lt y d.t4 with h | h
  · rw [mapVal_def, if_neg (not_le.mpr (by linarith)), if_neg (not_le.mpr (by linarith)),
      if_neg (not_le.mpr hy), if_pos h]
    exact ramp_ge (by linarith) (by norm_num) (le_of_lt hy)
  · linarith [mapVal_lo4 hd h]

lemma mapVal_lo2 {d : TierDict} (hd : ValidBoundaries d) {y : ℚ} (hy : d.t2 < y) :
    (0.4:ℚ) ≤ mapVal y d := by
  obtain ⟨h1, h12, h23, h34, h45, h56, h61⟩ := id hd
  rcases le_or_lt y d.t3 with h | h
  · rw [mapVal_def, if_neg (not_le.mpr (by linarith)), if_neg (not_le.mpr hy), if_pos h]
    exact ramp_ge (by linarith) (by norm_num) (le_of_lt hy)
  · linarith [mapVal_lo3 hd h]

lemma mapVal_lo1 {d : TierDict} (hd : ValidBoundaries d) {y : ℚ} (hy : d.t1 < y) :
    (0.25:ℚ) ≤ mapVal y d := by
  obtain ⟨h1, h12, h23, h34, h45, h56, h61⟩ := id hd
  rcases le_or_lt y d.t2 with h | h
  · rw [mapVal_def, if_neg (not_le.mpr hy), if_pos h]
    exact ramp_ge (by linarith) (by norm_num) (le_of_lt hy)
  · linarith [mapVal_lo2 hd h]

/-- The value of `map_score` is monotone non-decreasing for a valid scheme. -/
lemma mapVal_mono {d : TierDict} (hd : ValidBoundaries d) {a b : ℚ} (hab : a ≤ b) :
    mapVal a d ≤ mapVal b d := by
  obtain ⟨h1, h12, h23, h34, h45, h56, h61⟩ := id hd
  rcases le_or_lt a d.t1 with ha | ha
  · rcases le_or_lt b d.t1 with hb | hb
    · rw [mapVal_def, mapVal_def, if_pos ha, if_pos hb]
      exact lin0_mono h1 (by norm_num) hab
    · have hfa : mapVal a d ≤ 0.25 := by
        rw [mapVal_def, if_pos ha]; exact lin0_le h1 (by norm_num) ha
      linarith [mapVal_lo1 hd hb]
  · rcases le_or_lt a d.t2 with ha2 | ha2
    · rcases le_or_lt b d.t2 with hb2 | hb2
      · rw [mapVal_def, mapVal_def, if_neg (not_le.mpr ha),
          if_neg (not_le.mpr (by linarith : d.t1 < b)), if_pos ha2, if_pos hb2]
        exact ramp_mono h12 (by norm_num) hab
      · have hfa : mapVal a d ≤ 0.4 := by
          rw [mapVal_def, if_neg (not_le.mpr ha), if_pos ha2]
          exact ramp_le h12 (by norm_num) ha2
        linarith [mapVal_lo2 hd hb2]
    · rcases le_or_lt a d.t3 with ha3 | ha3
      · rcases le_or_lt b d.t3 with hb3 | hb3
        · rw [mapVal_def, mapVal_def, if_neg (not_le.mpr ha),
            if_neg (not_le.mpr (by linarith : d.t1 < b)), if_neg (not_le.mpr ha2),
            if_neg (not_le.mpr (by linarith : d.t2 < b)), if_pos ha3, if_pos hb3]
          exact ramp_mono h23 (by norm_num) hab
        · have hfa : mapVal a d ≤ 0.5 := by
            rw [mapVal_def, if_neg (not_le.mpr ha), if_neg (not_le.mpr ha2), if_pos ha3]
            exact ramp_le h23 (by norm_num) ha3
          linarith [mapVal_lo3 hd hb3]
      · rcases le_or_lt a d.t4 with ha4 | ha4
        · rcases le_or_lt b d.t4 with hb4 | hb4
          · rw [mapVal_def, mapVal_def, if_neg (not_le.mpr ha),
              if_neg (not_le.mpr (by linarith : d.t1 < b)), if_neg (not_le.mpr ha2),
              if_neg (not_le.mpr (by linarith : d.t2 < b)), if_neg (not_le.mpr ha3),
              if_neg (not_le.mpr (by linarith : d.t3 < b)), if_pos ha4, if_pos hb4]
            exact ramp_mono h34 (by norm_num) hab
          · have hfa : mapVal a d ≤ 0.6 := by
              rw [mapVal_def, if_neg (not_le.mpr ha), if_neg (not_le.mpr ha2),
                if_neg (not_le.mpr ha3), if_pos ha4]
              exact ramp_le h34 (by norm_num) ha4
            linarith [mapVal_lo4 hd hb4]
        · rcases le_or_lt a d.t5 with ha5 | ha5
          · rcases le_or_lt b d.t5 with hb5 | hb5
            · rw [mapVal_def, mapVal_def, if_neg (not_le.mpr ha),
                if_neg (not_le.mpr (by linarith : d.t1 < b)), if_neg (not_le.mpr ha2),
                if_neg (not_le.mpr (by linarith : d.t2 < b)), if_neg (not_le.mpr ha3),
                if_neg (not_le.mpr (by linarith : d.t3 < b)), if_neg (not_le.mpr ha4),
                if_neg (not_le.mpr (by linarith : d.t4 < b)), if_pos ha5, if_pos hb5]
              exact ramp_mono h45 (by norm_num) hab
            · have hfa : mapVal a d ≤ 0.65 := by
                rw [mapVal_def, if_neg (not_le.mpr ha), if_neg (not_le.mpr ha2),
                  if_neg (not_le.mpr ha3), if_neg (not_le.mpr ha4), if_pos ha5]
                exact ramp_le h45 (by norm_num) ha5
              linarith [mapVal_lo5 hd hb5]
          · rcases le_or_lt a d.t6 with ha6 | ha6
            · rcases le_or_lt b d.t6 with hb6 | hb6
              · rw [mapVal_def, mapVal_def, if_neg (not_le.mpr ha),
                  if_neg (not_le.mpr (by linarith : d.t1 < b)), if_neg (not_le.mpr ha2),
                  if_neg (not_le.mpr (by linarith : d.t2 < b)), if_neg (not_le.mpr ha3),
                  if_neg (not_le.mpr (by linarith : d.t3 < b)), if_neg (not_le.mpr ha4),
                  if_neg (not_le.mpr (by linarith : d.t4 < b)), if_neg (not_le.mpr ha5),
                  if_neg (not_le.mpr (by linarith : d.t5 < b)), if_pos ha6, if_pos hb6]
                exact ramp_mono h56 (by norm_num) hab
              · have hfa : mapVal a d ≤ 0.75 := by
                  rw [mapVal_def, if_neg (not_le.mpr ha), if_neg (not_le.mpr ha2),
                    if_neg (not_le.mpr ha3), if_neg (not_le.mpr ha4),
                    if_neg (not_le.mpr ha5), if_pos ha6]
                  exact ramp_le h56 (by norm_num) ha6
                linarith [mapVal_lo6 hd hb6]
            · rw [mapVal_def, mapVal_def, if_neg (not_le.mpr ha),
                if_neg (not_le.mpr (by linarith : d.t1 < b)), if_neg (not_le.mpr ha2),
                if_neg (not_le.mpr (by linarith : d.t2 < b)), if_neg (not_le.mpr ha3),
                if_neg (not_le.mpr (by linarith : d.t3 < b)), if_neg (not_le.mpr ha4),
                if_neg (not_le.mpr (by linarith : d.t4 < b)), if_neg (not_le.mpr ha5),
                if_neg (not_le.mpr (by linarith : d.t5 < b)), if_neg (not_le.mpr ha6),
                if_neg (not_le.mpr (by linarith : d.t6 < b))]
              exact ramp_mono h61 (by norm_num) hab

/-! ## Lower bounds for `unmapVal` past each fixed boundary -/

lemma unmapVal_lo6 {d : TierDict} (hd : ValidBoundaries d) {y : ℚ}
    (hy : (0.75:ℚ) < y) (hy1 : y ≤ 1) : d.t6 ≤ unmapVal y d := by
  obtain ⟨h1, h12, h23, h34, h45, h56, h61⟩ := hd
  rw [unmapVal_def, if_neg (not_le.mpr (by linarith)), if_neg (not_le.mpr (by linarith)),
    if_neg (not_le.mpr (by linarith)), if_neg (not_le.mpr (by linarith)),
    if_neg (not_le.mpr (by linarith)), if_neg (not_le.mpr hy), if_pos hy1]
  exact ramp_ge (by norm_num) (by linarith) (le_of_lt hy)

lemma unmapVal_lo5 {d : TierDict} (hd : ValidBoundaries d) {y : ℚ}
    (hy : (0.65:ℚ) < y) (hy1 : y ≤ 1) : d.t5 ≤ unmapVal y d := by
  obtain ⟨h1, h12, h23, h34, h45, h56, h61⟩ := id hd
  rcases le_or_lt y 0.75 with h | h
  · rw [unmapVal_def, if_neg (not_le.mpr (by linarith)), if_neg (not_le.mpr (by linarith)),
      if_neg (not_le.mpr (by linarith)), if_neg (not_le.mpr (by linarith)),
      if_neg (not_le.mpr hy), if_pos h]
    exact ramp_ge (by norm_num) (by linarith) (le_of_lt hy)
  · linarith [unmapVal_lo6 hd h hy1]

lemma unmapVal_lo4 {d : TierDict} (hd : ValidBoundaries d) {y : ℚ}
    (hy : (0.6:ℚ) < y) (hy1 : y ≤ 1) : d.t4 ≤ unmapVal y d := by
  obtain ⟨h1, h12, h23, h34, h45, h56, h61⟩ := id hd
  rcases le_or_lt y 0.65 with h | h
  · rw [unmapVal_def, if_neg (not_le.mpr (by linarith)), if_neg (not_le.mpr (by linarith)),
      if_neg (not_le.mpr (by linarith)), if_neg (not_le.mpr hy), if_pos h]
    exact ramp_ge (by norm_num) (by linarith) (le_of_lt hy)
  · linarith [unmapVal_lo5 hd h hy1]

lemma unmapVal_lo3 {d : TierDict} (hd : ValidBoundaries d) {y : ℚ}
    (hy : (0.5:ℚ) < y) (hy1 : y ≤ 1) : d.t3 ≤ unmapVal y d := by
  obtain ⟨h1, h12, h23, h34, h45, h56, h61⟩ := id hd
  rcases le_or_lt y 0.6 with h | h
  · rw [unmapVal_def, if_neg (not_le.mpr (by linarith)), if_neg (not_le.mpr (by linarith)),
      if_neg (not_le.mpr hy), if_pos h]
    exact ramp_ge (by norm_num) (by linarith) (le_of_lt hy)
  · linarith [unmapVal_lo4 hd h hy1]

lemma unmapVal_lo2 {d : TierDict} (hd : ValidBoundaries d) {y : ℚ}
    (hy : (0.4:ℚ) < y) (hy1 : y ≤ 1) : d.t2 ≤ unmapVal y d := by
  obtain ⟨h1, h12, h23, h34, h45, h56, h61⟩ := id hd
  rcases le_or_lt y 0.5 with h | h
  · rw [unmapVal_def, if_neg (not_le.mpr (by linarith)), if_neg (not_le.mpr hy), if_pos h]
    exact ramp_ge (by norm_num) (by linarith) (le_of_lt hy)
  · linarith [unmapVal_lo3 hd h hy1]

lemma unmapVal_lo1 {d : TierDict} (hd : ValidBoundaries d) {y : ℚ}
    (hy : (0.25:ℚ) < y) (hy1 : y ≤ 1) : d.t1 ≤ unmapVal y d := by
  obtain ⟨h1, h12, h23, h34, h45, h56, h61⟩ := id hd
  rcases le_or_lt y 0.4 with h | h
  · rw [unmapVal_def, if_neg (not_le.mpr hy), if_pos h]
    exact ramp_ge (by norm_num) (by linarith) (le_of_lt hy)
  · linarith [unmapVal_lo2 hd h hy1]

/-- The value of `_unmap_score` is monotone non-decreasing on `[0,1]` for a valid
scheme (only `b ≤ 1` is needed). -/
lemma unmapVal_mono {d : TierDict} (hd : ValidBoundaries d) {a b : ℚ}
    (hab : a ≤ b) (hb1 : b ≤ 1) : unmapVal a d ≤ unmapVal b d := by
  obtain ⟨h1, h12, h23, h34, h45, h56, h61⟩ := id hd
  rcases le_or_lt a 0.25 with ha | ha
  · rcases le_or_lt b 0.25 with hb | hb
    · rw [unmapVal_def, unmapVal_def, if_pos ha, if_pos hb]
      exact lin0_mono (by norm_num) (by linarith) hab
    · have hfa : unmapVal a d ≤ d.t1 := by
        rw [unmapVal_def, if_pos ha]; exact lin0_le (by norm_num) (by linarith) ha
      linarith [unmapVal_lo1 hd hb hb1]
  · rcases le_or_lt a 0.4 with ha2 | ha2
    · rcases le_or_lt b 0.4 with hb2 | hb2
      · rw [unmapVal_def, unmapVal_def, if_neg (not_le.mpr ha),
          if_neg (not_le.mpr (by linarith : (0.25:ℚ) < b)), if_pos ha2, if_pos hb2]
        exact ramp_mono (by norm_num) (by linarith) hab
      · have hfa : unmapVal a d ≤ d.t2 := by
          rw [unmapVal_def, if_neg (not_le.mpr ha), if_pos ha2]
          exact ramp_le (by norm_num) (by linarith) ha2
        linarith [unmapVal_lo2 hd hb2 hb1]
    · rcases le_or_lt a 0.5 with ha3 | ha3
      · rcases le_or_lt b 0.5 with hb3 | hb3
        · rw [unmapVal_def, unmapVal_def, if_neg (not_le.mpr ha),
            if_neg (not_le.mpr (by linarith : (0.25:ℚ) < b)), if_neg (not_le.mpr ha2),
            if_neg (not_le.mpr (by linarith : (0.4:ℚ) < b)), if_pos ha3, if_pos hb3]
          exact ramp_mono (by norm_num) (by linarith) hab
        · have hfa : unmapVal a d ≤ d.t3 := by
            rw [unmapVal_def, if_neg (not_le.mpr ha), if_neg (not_le.mpr ha2), if_pos ha3]
            exact ramp_le (by norm_num) (by linarith) ha3
          linarith [unmapVal_lo3 hd hb3 hb1]
      · rcases le_or_lt a 0.6 with ha4 | ha4
        · rcases le_or_lt b 0.6 with hb4 | hb4
          · rw [unmapVal_def, unmapVal_def, if_neg (not_le.mpr ha),
              if_neg (not_le.mpr (by linarith : (0.25:ℚ) < b)), if_neg (not_le.mpr ha2),
              if_neg (not_le.mpr (by linarith : (0.4:ℚ) < b)), if_neg (not_le.mpr ha3),
              if_neg (not_le.mpr (by linarith : (0.5:ℚ) < b)), if_pos ha4, if_pos hb4]
            exact ramp_mono (by norm_num) (by linarith) hab
          · have hfa : unmapVal a d ≤ d.t4 := by
              rw [unmapVal_def, if_neg (not_le.mpr ha), if_neg (not_le.mpr ha2),
                if_neg (not_le.mpr ha3), if_pos ha4]
              exact ramp_le (by norm_num) (by linarith) ha4
            linarith [unmapVal_lo4 hd hb4 hb1]
        · rcases le_or_lt a 0.65 with ha5 | ha5
          · rcases le_or_lt b 0.65 with hb5 | hb5
            · rw [unmapVal_def, unmapVal_def, if_neg (not_le.mpr ha),
                if_neg (not_le.mpr (by linarith : (0.25:ℚ) < b)), if_neg (not_le.mpr ha2),
                if_neg (not_le.mpr (by linarith : (0.4:ℚ) < b)), if_neg (not_le.mpr ha3),
                if_neg (not_le.mpr (by linarith : (0.5:ℚ) < b)), if_neg (not_le.mpr ha4),
                if_neg (not_le.mpr (by linarith : (0.6:ℚ) < b)), if_pos ha5, if_pos hb5]
              exact ramp_mono (by norm_num) (by linarith) hab
            · have hfa : unmapVal a d ≤ d.t5 := by
                rw [unmapVal_def, if_neg (not_le.mpr ha), if_neg (not_le.mpr ha2),
                  if_neg (not_le.mpr ha3), if_neg (not_le.mpr ha4), if_pos ha5]
                exact ramp_le (by norm_num) (by linarith) ha5
              linarith [unmapVal_lo5 hd hb5 hb1]
          · rcases le_or_lt a 0.75 with ha6 | ha6
            · rcases le_or_lt b 0.75 with hb6 | hb6
              · rw [unmapVal_def, unmapVal_def, if_neg (not_le.mpr ha),
                  if_neg (not_le.mpr (by linarith : (0.25:ℚ) < b)), if_neg (not_le.mpr ha2),
                  if_neg (not_le.mpr (by linarith : (0.4:ℚ) < b)), if_neg (not_le.mpr ha3),
                  if_neg (not_le.mpr (by linarith : (0.5:ℚ) < b)), if_neg (not_le.mpr ha4),
                  if_neg (not_le.mpr (by linarith : (0.6:ℚ) < b)), if_neg (not_le.mpr ha5),
                  if_neg (not_le.mpr (by linarith : (0.65:ℚ) < b)), if_pos ha6, if_pos hb6]
                exact ramp_mono (by norm_num) (by linarith) hab
              · have hfa : unmapVal a d ≤ d.t6 := by
                  rw [unmapVal_def, if_neg (not_le.mpr ha), if_neg (not_le.mpr ha2),
                    if_neg (not_le.mpr ha3), if_neg (not_le.mpr ha4),
                    if_neg (not_le.mpr ha5), if_pos ha6]
                  exact ramp_le (by norm_num) (by linarith) ha6
                linarith [unmapVal_lo6 hd hb6 hb1]
            · rw [unmapVal_def, unmapVal_def, if_neg (not_le.mpr ha),
                if_neg (not_le.mpr (by linarith : (0.25:ℚ) < b)), if_neg (not_le.mpr ha2),
                if_neg (not_le.mpr (by linarith : (0.4:ℚ) < b)), if_neg (not_le.mpr ha3),
                if_neg (not_le.mpr (by linarith : (0.5:ℚ) < b)), if_neg (not_le.mpr ha4),
                if_neg (not_le.mpr (by linarith : (0.6:ℚ) < b)), if_neg (not_le.mpr ha5),
                if_neg (not_le.mpr (by linarith : (0.65:ℚ) < b)), if_neg (not_le.mpr ha6),
                if_neg (not_le.mpr (by linarith : (0.75:ℚ) < b)),
                if_pos (le_trans hab hb1), if_pos hb1]
              exact ramp_mono (by norm_num) (by linarith) hab

/-! ## The two passes are mutually inverse for one valid scheme -/

lemma map_unmap_inverse {s : TierDict} (hs : ValidBoundaries s) {x : ℚ}
    (h0 : 0 ≤ x) (h1 : x ≤ 1) : mapVal (unmapVal x s) s = x := by
  obtain ⟨ht1, h12, h23, h34, h45, h56, h61⟩ := id hs
  rcases le_or_lt x 0.25 with hx | hx
  · have hy : unmapVal x s ≤ s.t1 := by
      rw [unmapVal_def, if_pos hx]
      exact lin0_le (by norm_num) (by linarith) hx
    rw [mapVal_def, if_pos hy, unmapVal_def, if_pos hx]
    field_simp
    ring
  · rcases le_or_lt x 0.4 with hx2 | hx2
    · have hrw : unmapVal x s = (x - 0.25) / (0.4 - 0.25) * (s.t2 - s.t1) + s.t1 := by
        rw [unmapVal_def, if_neg (not_le.mpr hx), if_pos hx2]
      have hyl : s.t1 < unmapVal x s := by
        rw [hrw]; exact ramp_gt (by norm_num) hx h12
      have hyu : unmapVal x s ≤ s.t2 := by
        rw [hrw]; exact ramp_le (by norm_num) (by linarith) hx2
      rw [mapVal_def, if_neg (not_le.mpr hyl), if_pos hyu, hrw]
      have hne : s.t2 - s.t1 ≠ 0 := sub_ne_zero.mpr (ne_of_gt h12)
      field_simp
      ring
    · rcases le_or_lt x 0.5 with hx3 | hx3
      · have hrw : unmapVal x s = (x - 0.4) / (0.5 - 0.4) * (s.t3 - s.t2) + s.t2 := by
          rw [unmapVal_def, if_neg (not_le.mpr hx), if_neg (not_le.mpr hx2), if_pos hx3]
        have hyl : s.t2 < unmapVal x s := by
          rw [hrw]; exact ramp_gt (by norm_num) hx2 h23
        have hyu : unmapVal x s ≤ s.t3 := by
          rw [hrw]; exact ramp_le (by norm_num) (by linarith) hx3
        rw [mapVal_def, if_neg (not_le.mpr (by linarith)), if_neg (not_le.mpr hyl),
          if_pos hyu, hrw]
        have hne : s.t3 - s.t2 ≠ 0 := sub_ne_zero.mpr (ne_of_gt h23)
        field_simp
        ring
      · rcases le_or_lt x 0.6 with hx4 | hx4
        · have hrw : unmapVal x s = (x - 0.5) / (0.6 - 0.5) * (s.t4 - s.t3) + s.t3 := by
            rw [unmapVal_def, if_neg (not_le.mpr hx), if_neg (not_le.mpr hx2),
              if_neg (not_le.mpr hx3), if_pos hx4]
          have hyl : s.t3 < unmapVal x s := by
            rw [hrw]; exact ramp_gt (by norm_num) hx3 h34
          have hyu : unmapVal x s ≤ s.t4 := by
            rw [hrw]; exact ramp_le (by norm_num) (by linarith) hx4
          rw [mapVal_def, if_neg (not_le.mpr (by linarith)), if_neg (not_le.mpr (by linarith)),
            if_neg (not_le.mpr hyl), if_pos hyu, hrw]
          have hne : s.t4 - s.t3 ≠ 0 := sub_ne_zero.mpr (ne_of_gt h34)
          field_simp
          ring
        · rcases le_or_lt x 0.65 with hx5 | hx5
          · have hrw : unmapVal x s = (x - 0.6) / (0.65 - 0.6) * (s.t5 - s.t4) + s.t4 := by
              rw [unmapVal_def, if_neg (not_le.mpr hx), if_neg (not_le.mpr hx2),
                if_neg (not_le.mpr hx3), if_neg (not_le.mpr hx4), if_pos hx5]
            have hyl : s.t4 < unmapVal x s := by
              rw [hrw]; exact ramp_gt (by norm_num) hx4 h45
            have hyu : unmapVal x s ≤ s.t5 := by
              rw [hrw]; exact ramp_le (by norm_num) (by linarith) hx5
            rw [mapVal_def, if_neg (not_le.mpr (by linarith)), if_neg (not_le.mpr (by linarith)),
              if_neg (not_le.mpr (by linarith)), if_neg (not_le.mpr hyl), if_pos hyu, hrw]
            have hne : s.t5 - s.t4 ≠ 0 := sub_ne_zero.mpr (ne_of_gt h45)
            field_simp
            ring
          · rcases le_or_lt x 0.75 with hx6 | hx6
            · have hrw : unmapVal x s = (x - 0.65) / (0.75 - 0.65) * (s.t6 - s.t5) + s.t5 := by
                rw [unmapVal_def, if_neg (not_le.mpr hx), if_neg (not_le.mpr hx2),
                  if_neg (not_le.mpr hx3), if_neg (not_le.mpr hx4), if_neg (not_le.mpr hx5),
                  if_pos hx6]
              have hyl : s.t5 < unmapVal x s := by
                rw [hrw]; exact ramp_gt (by norm_num) hx5 h56
              have hyu : unmapVal x s ≤ s.t6 := by
                rw [hrw]; exact ramp_le (by norm_num) (by linarith) hx6
              rw [mapVal_def, if_neg (not_le.mpr (by linarith)), if_neg (not_le.mpr (by linarith)),
                if_neg (not_le.mpr (by linarith)), if_neg (not_le.mpr (by linarith)),
                if_neg (not_le.mpr hyl), if_pos hyu, hrw]
              have hne : s.t6 - s.t5 ≠ 0 := sub_ne_zero.mpr (ne_of_gt h56)
              field_simp
              ring
            · have hrw : unmapVal x s = (x - 0.75) / (1 - 0.75) * (1 - s.t6) + s.t6 := by
                rw [unmapVal_def, if_neg (not_le.mpr hx), if_neg (not_le.mpr hx2),
                  if_neg (not_le.mpr hx3), if_neg (not_le.mpr hx4), if_neg (not_le.mpr hx5),
                  if_neg (not_le.mpr hx6), if_pos h1]
              have hyl : s.t6 < unmapVal x s := by
                rw [hrw]; exact ramp_gt (by norm_num) hx6 h61
              rw [mapVal_def, if_neg (not_le.mpr (by linarith)), if_neg (not_le.mpr (by linarith)),
                if_neg (not_le.mpr (by linarith)), if_neg (not_le.mpr (by linarith)),
                if_neg (not_le.mpr (by linarith)), if_neg (not_le.mpr hyl), hrw]
              have hne : (1:ℚ) - s.t6 ≠ 0 := sub_ne_zero.mpr (ne_of_gt h61)
              field_simp
              ring

/-! ## `score_to_tier` lemmas -/

lemma scanTiers_hits (tb : List (String × ℚ)) :
    ∀ (l0 : ℚ), tb.Pairwise (fun a b => a.2 < b.2) → (∀ q ∈ tb, l0 < q.2) →
      ∀ p ∈ tb, TierMapper.scanTiers p.2 (tb.map Prod.fst ++ ["Tier7"])
        (l0 :: (tb.map Prod.snd ++ [1])) = some p.1 := by
  induction tb with
  | nil => intro l0 _ _ p hp; cases hp
  | cons q rest ih =>
    intro l0 hpw hl0 p hp
    have hq2 : l0 < q.2 := hl0 q (List.mem_cons_self q rest)
    rcases List.mem_cons.mp hp with hp | hp
    · subst hp
      simp only [List.map_cons, List.cons_append, TierMapper.scanTiers]
      rw [if_pos ⟨le_refl _, hq2⟩]
    · have hqlt : q.2 < p.2 := (List.pairwise_cons.mp hpw).1 p hp
      simp only [List.map_cons, List.cons_append, TierMapper.scanTiers]
      rw [if_neg (fun h => absurd h.1 (not_le.mpr hqlt))]
      exact ih q.2 (List.pairwise_cons.mp hpw).2
        (fun r hr => (List.pairwise_cons.mp hpw).1 r hr) p hp

lemma scanTiers_isSome (score : ℚ) (h1 : score ≤ 1) :
    ∀ (tb : List (String × ℚ)) (l0 : ℚ), l0 < score →
      (TierMapper.scanTiers score (tb.map Prod.fst ++ ["Tier7"])
        (l0 :: (tb.map Prod.snd ++ [1]))).isSome = true := by
  intro tb
  induction tb with
  | nil =>
    intro l0 hl0
    simp only [List.map_nil, List.nil_append, TierMapper.scanTiers]
    rw [if_pos ⟨h1, hl0⟩]
    rfl
  | cons q rest ih =>
    intro l0 hl0
    simp only [List.map_cons, List.cons_append, TierMapper.scanTiers]
    rcases le_or_lt score q.2 with h | h
    · rw [if_pos ⟨h, hl0⟩]; rfl
    · rw [if_neg (fun hc => absurd hc.1 (not_le.mpr h))]
      exact ih q.2 h

/-! ## Fan-out merge lemmas -/

lemma insertionSort_strict_of_nodup_keys (l : List (String × List Cell))
    (hnd : (l.map Prod.fst).Nodup) :
    (l.insertionSort byColName).Pairwise (fun p q => p.1 < q.1) := by
  haveI : IsTotal (String × List Cell) byColName := ⟨fun a b => le_total a.1 b.1⟩
  haveI : IsTrans (String × List Cell) byColName := ⟨fun a b c hab hbc => le_trans hab hbc⟩
  have hs : (l.insertionSort byColName).Pairwise byColName :=
    List.sorted_insertionSort byColName l
  have hperm : (l.insertionSort byColName).Perm l := List.perm_insertionSort _ _
  have hnd' : ((l.insertionSort byColName).map Prod.fst).Nodup :=
    ((hperm.map Prod.fst).nodup_iff).mpr hnd
  have hne : (l.insertionSort byColName).Pairwise (fun p q => p.1 ≠ q.1) :=
    List.pairwise_map.mp hnd'
  exact hne.imp₂ (fun p q h1 h2 => lt_of_le_of_ne h2 h1) hs

lemma insertionSort_eq_of_perm_nodup_keys {l1 l2 : List (String × List Cell)}
    (hperm : l1.Perm l2) (hnd : (l1.map Prod.fst).Nodup) :
    l1.insertionSort byColName = l2.insertionSort byColName := by
  haveI : IsAntisymm (String × List Cell) (fun p q : String × List Cell => p.1 < q.1) :=
    ⟨fun a b h h' => absurd h' (lt_asymm h)⟩
  have hnd2 : (l2.map Prod.fst).Nodup := ((hperm.map Prod.fst).nodup_iff).mp hnd
  have hp : (l1.insertionSort byColName).Perm (l2.insertionSort byColName) :=
    (List.perm_insertionSort _ l1).trans (hperm.trans (List.perm_insertionSort _ l2).symm)
  exact List.eq_of_perm_of_sorted hp
    (insertionSort_strict_of_nodup_keys l1 hnd)
    (insertionSort_strict_of_nodup_keys l2 hnd2)

/-! ## Copy-policy lemmas -/

lemma missingColumnReplacer_small_no_mutation (r : MissingColumnReplacer)
    (df : Frame) (h : is_data_size_small df = true) :
    (MissingColumnReplacer.process r df).2 = df := by
  simp [MissingColumnReplacer.process, h]

lemma timeSlicer_no_convert_no_mutation (s : DataFrameTimeSlicer) (df res after : Frame)
    (hfmt : s.convert_to_datetime_format = "") (hp : DataFrameTimeSlicer.process s df = some (res, after)) :
    after = df := by
  unfold DataFrameTimeSlicer.process at hp
  rw [hfmt, if_neg (by simp)] at hp
  rcases hgc : Frame.getCol df s.col_name_for_time with _ | cells
  · simp only [hgc] at hp
    cases hp
  · simp only [hgc, Option.some.injEq, Prod.mk.injEq] at hp
    exact hp.2.symm

/-! ## Claim theorems -/

/-- C1: for every tier-boundary scheme with strictly increasing boundary values
in `(0,1)` and every score in `[0,1]`, `TierMapper.process` constructed with
that scheme as both the previous and the new boundaries returns the input
score. In the exact rational model, "to within floating-point tolerance"
sharpens to exact equality. -/
theorem tierMapper_process_same_scheme_identity (s : TierDict)
    (hs : ValidBoundaries s) (x : ℚ) (h0 : 0 ≤ x) (h1 : x ≤ 1) :
    (TierMapper.process ⟨s, s⟩ x).1 = x :=
  map_unmap_inverse hs h0 h1

theorem tierMapper_process_same_scheme_identity_witness :
    ValidBoundaries ⟨19/100, 26/100, 32/100, 43/100, 48/100, 52/100, none⟩ ∧
    (0:ℚ) ≤ 3/20 ∧ (3:ℚ)/20 ≤ 1 ∧
    (TierMapper.process
      ⟨⟨19/100, 26/100, 32/100, 43/100, 48/100, 52/100, none⟩,
       ⟨19/100, 26/100, 32/100, 43/100, 48/100, 52/100, none⟩⟩ (3/20)).1 = 3/20 :=
  ⟨by norm_num [ValidBoundaries], by norm_num, by norm_num,
   tierMapper_process_same_scheme_identity _ (by norm_num [ValidBoundaries]) _
     (by norm_num) (by norm_num)⟩

/-- C2: for every pair of tier-boundary schemes with strictly increasing
boundary values in `(0,1)`, `TierMapper.process` is monotone non-decreasing in
the input score over `[0,1]`. -/
theorem tierMapper_process_monotone (m : TierMapper)
    (hprev : ValidBoundaries m.previous_tier_boundaries)
    (hnew : ValidBoundaries m.new_tier_boundaries)
    (a b : ℚ) (h0 : 0 ≤ a) (hab : a ≤ b) (hb1 : b ≤ 1) :
    (TierMapper.process m a).1 ≤ (TierMapper.process m b).1 :=
  mapVal_mono hnew (unmapVal_mono hprev hab hb1)

theorem tierMapper_process_monotone_witness :
    ValidBoundaries ⟨1/10, 1/5, 3/10, 2/5, 1/2, 3/5, none⟩ ∧
    ValidBoundaries ⟨1/2, 11/20, 3/5, 13/20, 7/10, 3/4, none⟩ ∧
    (0:ℚ) ≤ 1/5 ∧ (1:ℚ)/5 ≤ 9/10 ∧ (9:ℚ)/10 ≤ 1 ∧
    (TierMapper.process
        ⟨⟨1/10, 1/5, 3/10, 2/5, 1/2, 3/5, none⟩,
         ⟨1/2, 11/20, 3/5, 13/20, 7/10, 3/4, none⟩⟩ (1/5)).1 ≤
      (TierMapper.process
        ⟨⟨1/10, 1/5, 3/10, 2/5, 1/2, 3/5, none⟩,
         ⟨1/2, 11/20, 3/5, 13/20, 7/10, 3/4, none⟩⟩ (9/10)).1 :=
  ⟨by norm_num [ValidBoundaries], by norm_num [ValidBoundaries], by norm_num,
   by norm_num, by norm_num,
   tierMapper_process_monotone _ (by norm_num [ValidBoundaries])
     (by norm_num [ValidBoundaries]) _ _ (by norm_num) (by norm_num) (by norm_num)⟩

/-- C3 counterexample: with the valid old scheme `(0.1, 0.2, 0.3, 0.4, 0.5,
0.6)` and valid new scheme `(0.5, 0.55, 0.6, 0.65, 0.7, 0.75)`,
`TierMapper.process` maps the old scheme's Tier1 boundary value `0.1` to
`0.02`, not to the new scheme's Tier1 boundary value `0.5`: the two passes run
in the direction opposite to the claim. -/
theorem tierMapper_old_boundary_not_mapped_to_new_boundary :
    ValidBoundaries ⟨1/10, 1/5, 3/10, 2/5, 1/2, 3/5, none⟩ ∧
    ValidBoundaries ⟨1/2, 11/20, 3/5, 13/20, 7/10, 3/4, none⟩ ∧
    (TierMapper.process
        ⟨⟨1/10, 1/5, 3/10, 2/5, 1/2, 3/5, none⟩,
         ⟨1/2, 11/20, 3/5, 13/20, 7/10, 3/4, none⟩⟩ (1/10)).1 = 1/50 ∧
    (1:ℚ)/50 ≠ 1/2 := by
  refine ⟨by norm_num [ValidBoundaries], by norm_num [ValidBoundaries], ?_, by norm_num⟩
  norm_num [TierMapper.process, TierMapper._unmap_score, TierMapper.map_score,
    TierDict.setTier7]

/-- C3 amended: the boundary correspondence holds in the direction the code
implements. For every valid scheme and every tier k, the first pass
(`_unmap_score`) takes the fixed canonical Tier-k boundary to the scheme's
Tier-k boundary, and the second pass (`map_score`) takes the scheme's Tier-k
boundary to the fixed canonical Tier-k boundary — so relative tier membership
is preserved between a scheme's space and the canonical space, not from the
old scheme's boundary values directly to the new scheme's. -/
theorem tierMapper_boundary_correspondence (d : TierDict) (hd : ValidBoundaries d) :
    (unmapVal 0.25 d = d.t1 ∧ unmapVal 0.4 d = d.t2 ∧ unmapVal 0.5 d = d.t3 ∧
     unmapVal 0.6 d = d.t4 ∧ unmapVal 0.65 d = d.t5 ∧ unmapVal 0.75 d = d.t6) ∧
    (mapVal d.t1 d = 0.25 ∧ mapVal d.t2 d = 0.4 ∧ mapVal d.t3 d = 0.5 ∧
     mapVal d.t4 d = 0.6 ∧ mapVal d.t5 d = 0.65 ∧ mapVal d.t6 d = 0.75) := by
  obtain ⟨h1, h12, h23, h34, h45, h56, h61⟩ := hd
  constructor
  · refine ⟨?_, ?_, ?_, ?_, ?_, ?_⟩
    · rw [unmapVal_def, if_pos (by norm_num : (0.25:ℚ) ≤ 0.25)]; norm_num
    · rw [unmapVal_def, if_neg (by norm_num), if_pos (by norm_num : (0.4:ℚ) ≤ 0.4)]
      norm_num
    · rw [unmapVal_def, if_neg (by norm_num), if_neg (by norm_num),
        if_pos (by norm_num : (0.5:ℚ) ≤ 0.5)]
      norm_num
    · rw [unmapVal_def, if_neg (by norm_num), if_neg (by norm_num),
        if_neg (by norm_num), if_pos (by norm_num : (0.6:ℚ) ≤ 0.6)]
      norm_num
    · rw [unmapVal_def, if_neg (by norm_num), if_neg (by norm_num),
        if_neg (by norm_num), if_neg (by norm_num),
        if_pos (by norm_num : (0.65:ℚ) ≤ 0.65)]
      norm_num
    · rw [unmapVal_def, if_neg (by norm_num), if_neg (by norm_num),
        if_neg (by norm_num), if_neg (by norm_num), if_neg (by norm_num),
        if_pos (by norm_num : (0.75:ℚ) ≤ 0.75)]
      norm_num
  · refine ⟨?_, ?_, ?_, ?_, ?_, ?_⟩
    · rw [mapVal_def, if_pos (le_refl d.t1), div_self (ne_of_gt h1)]; norm_num
    · rw [mapVal_def, if_neg (not_le.mpr h12), if_pos (le_refl d.t2),
        div_self (sub_ne_zero.mpr (ne_of_gt h12))]
      norm_num
    · rw [mapVal_def, if_neg (not_le.mpr (by linarith)), if_neg (not_le.mpr h23),
        if_pos (le_refl d.t3), div_self (sub_ne_zero.mpr (ne_of_gt h23))]
      norm_num
    · rw [mapVal_def, if_neg (not_le.mpr (by linarith)), if_neg (not_le.mpr (by linarith)),
        if_neg (not_le.mpr h34), if_pos (le_refl d.t4),
        div_self (sub_ne_zero.mpr (ne_of_gt h34))]
      norm_num
    · rw [mapVal_def, if_neg (not_le.mpr (by linarith)), if_neg (not_le.mpr (by linarith)),
        if_neg (not_le.mpr (by linarith)), if_neg (not_le.mpr h45),
        if_pos (le_refl d.t5), div_self (sub_ne_zero.mpr (ne_of_gt h45))]
      norm_num
    · rw [mapVal_def, if_neg (not_le.mpr (by linarith)), if_neg (not_le.mpr (by linarith)),
        if_neg (not_le.mpr (by linarith)), if_neg (not_le.mpr (by linarith)),
        if_neg (not_le.mpr h56), if_pos (le_refl d.t6),
        div_self (sub_ne_zero.mpr (ne_of_gt h56))]
      norm_num

theorem tierMapper_boundary_correspondence_witness :
    ValidBoundaries ⟨19/100, 26/100, 32/100, 43/100, 48/100, 52/100, none⟩ ∧
    (unmapVal 0.4 ⟨19/100, 26/100, 32/100, 43/100, 48/100, 52/100, none⟩ = 26/100 ∧
     mapVal (26/100) ⟨19/100, 26/100, 32/100, 43/100, 48/100, 52/100, none⟩ = 0.4) :=
  ⟨by norm_num [ValidBoundaries],
   (tierMapper_boundary_correspondence _ (by norm_num [ValidBoundaries])).1.2.1,
   (tierMapper_boundary_correspondence _ (by norm_num [ValidBoundaries])).2.2.1⟩

/-- C4: on the closed insight-code alphabet, `_split_categorical_column`
realises exactly the §4.3 encoding table (spec-side `spec_cat_channel` /
`spec_num_channel`), and on the configured column `"QCB_a"` (whose name
contains the convention marker `"QCB"`) `CategoricalColumnSplitter.process`
produces the claimed numeric channel under the `_num`-suffixed name and
overwrites the original column with the claimed categorical channel. -/
theorem categoricalColumnSplitter_encoding_table :
    closedAlphabet.map
        (fun c => CategoricalColumnSplitter._split_categorical_column [c])
      = closedAlphabet.map (fun c => ([spec_cat_channel c], [spec_num_channel c])) ∧
    CategoricalColumnSplitter.process ⟨["QCB_a"]⟩
        [("QCB_a", [.str "0", .str "3", .str "D", .str "R", .str "S", .str "A", .str "Z"])]
      = some [("QCB_a", [.missing, .str "D", .str "D", .str "R", .str "S", .str "A", .str "Z"]),
              ("QCB_a_num", [.num 0, .num 3, .num 5, .num 6, .num 0, .num 2, .missing])] :=
  ⟨by decide, by decide⟩

/-- C5: for a tier-boundary scheme with sorted distinct boundary values in
`(0,1)`, `score_to_tier` applied to a boundary value returns the tier whose
upper bound equals that value (right-inclusive segments). -/
theorem score_to_tier_at_boundary (tb : List (String × ℚ))
    (hsorted : tb.Pairwise (fun a b => a.2 < b.2))
    (hrange : ∀ q ∈ tb, 0 < q.2 ∧ q.2 < 1)
    (p : String × ℚ) (hp : p ∈ tb) :
    TierMapper.score_to_tier p.2 tb = some p.1 := by
  have hs : tb.Sorted TierMapper.byBoundaryValue :=
    hsorted.imp (fun h => le_of_lt h)
  simp only [TierMapper.score_to_tier]
  rw [List.Sorted.insertionSort_eq hs]
  exact scanTiers_hits tb 0 hsorted (fun q hq => (hrange q hq).1) p hp

theorem score_to_tier_at_boundary_witness :
    ([("Tier1", (1:ℚ)/4), ("Tier2", 1/2)].Pairwise (fun a b => a.2 < b.2)) ∧
    (∀ q ∈ [("Tier1", (1:ℚ)/4), ("Tier2", 1/2)], 0 < q.2 ∧ q.2 < 1) ∧
    ("Tier1", (1:ℚ)/4) ∈ [("Tier1", (1:ℚ)/4), ("Tier2", 1/2)] ∧
    TierMapper.score_to_tier (1/4) [("Tier1", (1:ℚ)/4), ("Tier2", 1/2)] = some "Tier1" :=
  ⟨by norm_num, by norm_num, by norm_num,
   score_to_tier_at_boundary [("Tier1", (1:ℚ)/4), ("Tier2", 1/2)] (by norm_num)
     (by norm_num) ("Tier1", (1:ℚ)/4) (by norm_num)⟩

/-- C6: contrary to the claim (and to the function's own docstring),
`score_to_tier` performs no range validation. A boundary above `1` silently
captures an out-of-range score: `score_to_tier(1.5, {"Tier1": 2.0})` returns
`"Tier1"` instead of raising, and with the in-range score `0.5` the
out-of-range boundary `{"Tier1": 1.5}` also goes unrejected. -/
theorem score_to_tier_out_of_range_not_rejected :
    TierMapper.score_to_tier (3/2) [("Tier1", 2)] = some "Tier1" ∧
    TierMapper.score_to_tier (1/2) [("Tier1", 3/2)] = some "Tier1" := by
  constructor <;>
    norm_num [TierMapper.score_to_tier, TierMapper.scanTiers, List.insertionSort,
      List.orderedInsert, TierMapper.byBoundaryValue]

/-- C7 counterexample: the score `0` lies in `[0,1]` and the scheme
`{"Tier1": 0.5}` has sorted distinct boundaries inside `(0,1)`, yet
`score_to_tier` finds no segment (the lowest segment `(0, v₁]` is
left-exclusive) and raises the domain error. -/
theorem score_to_tier_at_zero_raises :
    (0:ℚ) ≤ 0 ∧ (0:ℚ) ≤ 1 ∧
    ([("Tier1", (1:ℚ)/2)].Pairwise (fun a b => a.2 < b.2)) ∧
    (∀ q ∈ [("Tier1", (1:ℚ)/2)], 0 < q.2 ∧ q.2 < 1) ∧
    TierMapper.score_to_tier 0 [("Tier1", (1:ℚ)/2)] = none :=
  ⟨le_refl 0, by norm_num, by norm_num, by norm_num,
   by norm_num [TierMapper.score_to_tier, TierMapper.scanTiers, List.insertionSort,
     List.orderedInsert, TierMapper.byBoundaryValue]⟩

/-- C7 amended: for every scheme with sorted distinct boundary values in
`(0,1)` and every score in the half-open interval `(0, 1]`, `score_to_tier`
returns a tier label and does not raise; the score `0` itself is excluded,
since the lowest segment is left-exclusive. -/
theorem score_to_tier_total_on_half_open (tb : List (String × ℚ))
    (hsorted : tb.Pairwise (fun a b => a.2 < b.2))
    (hrange : ∀ q ∈ tb, 0 < q.2 ∧ q.2 < 1)
    (score : ℚ) (h0 : 0 < score) (h1 : score ≤ 1) :
    (TierMapper.score_to_tier score tb).isSome = true := by
  simp only [TierMapper.score_to_tier]
  exact scanTiers_isSome score h1 (tb.insertionSort TierMapper.byBoundaryValue) 0 h0

theorem score_to_tier_total_on_half_open_witness :
    ([("Tier1", (1:ℚ)/4), ("Tier2", 1/2)].Pairwise (fun a b => a.2 < b.2)) ∧
    (∀ q ∈ [("Tier1", (1:ℚ)/4), ("Tier2", 1/2)], 0 < q.2 ∧ q.2 < 1) ∧
    (0:ℚ) < 7/10 ∧ (7:ℚ)/10 ≤ 1 ∧
    (TierMapper.score_to_tier (7/10) [("Tier1", (1:ℚ)/4), ("Tier2", 1/2)]).isSome = true :=
  ⟨by norm_num, by norm_num, by norm_num, by norm_num,
   score_to_tier_total_on_half_open _ (by norm_num) (by norm_num) _
     (by norm_num) (by norm_num)⟩

/-- C8 counterexample: `TierMapper.process` does modify the caller-supplied
configuration. With the docstring's example boundaries (no `Tier7` entry),
after one `process` call the previous-boundaries dictionary has gained the
entry `Tier7 = 1.0` and is no longer equal to the dictionary supplied at
construction. -/
theorem tierMapper_process_mutates_boundaries :
    (TierMapper.process
        ⟨⟨19/100, 26/100, 32/100, 43/100, 48/100, 52/100, none⟩,
         ⟨19/100, 26/100, 32/100, 43/100, 48/100, 52/100, none⟩⟩
        (1/2)).2.previous_tier_boundaries
      ≠ ⟨19/100, 26/100, 32/100, 43/100, 48/100, 52/100, none⟩ := by
  norm_num [TierMapper.process, TierMapper._unmap_score, TierMapper.map_score,
    TierDict.setTier7]
  simp

/-- C8 amended: `TierMapper.process` mutates both caller-supplied boundary
dictionaries, but only by writing the implicit terminal entry `Tier7 = 1.0`
into each; the caller-supplied `Tier1`..`Tier6` entries are left unchanged. -/
theorem tierMapper_process_mutation_only_tier7 (m : TierMapper) (x : ℚ) :
    (TierMapper.process m x).2 =
      ⟨TierDict.setTier7 m.previous_tier_boundaries,
       TierDict.setTier7 m.new_tier_boundaries⟩ ∧
    (∀ d : TierDict,
      (TierDict.setTier7 d).t1 = d.t1 ∧ (TierDict.setTier7 d).t2 = d.t2 ∧
      (TierDict.setTier7 d).t3 = d.t3 ∧ (TierDict.setTier7 d).t4 = d.t4 ∧
      (TierDict.setTier7 d).t5 = d.t5 ∧ (TierDict.setTier7 d).t6 = d.t6 ∧
      (TierDict.setTier7 d).t7 = some 1) :=
  ⟨rfl, fun _ => ⟨rfl, rfl, rfl, rfl, rfl, rfl, rfl⟩⟩

/-- C9 counterexample: a one-cell frame is far below the 100,000,000-cell copy
threshold, yet `DataFrameTimeSlicer.process` with a configured datetime
conversion format writes the converted column back into the caller's frame:
the caller's dataset after the call differs from the original. -/
theorem dataFrameTimeSlicer_mutates_small_caller_frame :
    is_data_size_small [("t", [Cell.str "5"])] = true ∧
    DataFrameTimeSlicer.process ⟨"t", 0, 10, "F"⟩ [("t", [Cell.str "5"])] =
      some ([("t", [Cell.num 5])], [("t", [Cell.num 5])]) ∧
    ([("t", [Cell.num 5])] : Frame) ≠ [("t", [Cell.str "5"])] :=
  ⟨by decide, by decide, by decide⟩

/-- C9 amended: below the copy threshold, Transforms that implement the
size-gated copy policy (here `MissingColumnReplacer`, via
`is_data_size_small`) leave the caller's dataset unchanged — but not every
Transform does: `DataFrameTimeSlicer.process` leaves the caller's frame
unchanged only when no datetime conversion format is configured, and mutates
it in place at any size when one is. -/
theorem below_threshold_copy_policy :
    (∀ (r : MissingColumnReplacer) (df : Frame),
        is_data_size_small df = true →
        (MissingColumnReplacer.process r df).2 = df) ∧
    (∀ (s : DataFrameTimeSlicer) (df res after : Frame),
        s.convert_to_datetime_format = "" →
        DataFrameTimeSlicer.process s df = some (res, after) → after = df) :=
  ⟨fun r df h => missingColumnReplacer_small_no_mutation r df h,
   fun s df res after hfmt hp => timeSlicer_no_convert_no_mutation s df res after hfmt hp⟩

theorem below_threshold_copy_policy_witness :
    is_data_size_small [("a", [Cell.num 1])] = true ∧
    (MissingColumnReplacer.process ⟨["b"], Cell.missing⟩ [("a", [Cell.num 1])]).2
      = [("a", [Cell.num 1])] :=
  ⟨by decide,
   below_threshold_copy_policy.1 ⟨["b"], Cell.missing⟩ [("a", [Cell.num 1])] (by decide)⟩

/-- C10: in fan-out mode with two column-disjoint branches, the merged result
has exactly the union of the two branches' output columns (keyed by name), and
the result is identical for both orders of the branch list. The executor is
modelled from the spec, `_data_pipe.py` not being among the sources. -/
theorem run_pipeline_fan_out_union (df : Frame) (b1 b2 : Frame → Frame)
    (hnd1 : ((b1 df).map Prod.fst).Nodup) (hnd2 : ((b2 df).map Prod.fst).Nodup)
    (hdisj : ∀ n ∈ (b1 df).map Prod.fst, n ∉ (b2 df).map Prod.fst) :
    ((run_pipeline_with_multi_threading [b1, b2] df).map Prod.fst).Perm
        ((b1 df).map Prod.fst ++ (b2 df).map Prod.fst) ∧
    run_pipeline_with_multi_threading [b2, b1] df
      = run_pipeline_with_multi_threading [b1, b2] df := by
  have hnd : (((b1 df ++ b2 df)).map Prod.fst).Nodup := by
    rw [List.map_append]
    exact List.nodup_append.mpr ⟨hnd1, hnd2, fun n hn1 hn2 => hdisj n hn1 hn2⟩
  constructor
  · have h1 : ((b1 df ++ b2 df).insertionSort byColName).Perm (b1 df ++ b2 df) :=
      List.perm_insertionSort _ _
    have := (h1.map Prod.fst)
    simpa [run_pipeline_with_multi_threading] using this
  · have hperm : (b2 df ++ b1 df).Perm (b1 df ++ b2 df) := List.perm_append_comm
    have hnd' : (((b2 df ++ b1 df)).map Prod.fst).Nodup :=
      ((hperm.map Prod.fst).nodup_iff).mpr hnd
    have := insertionSort_eq_of_perm_nodup_keys hperm hnd'
    simpa [run_pipeline_with_multi_threading] using this

theorem run_pipeline_fan_out_union_witness :
    ((([("x", [Cell.num 1])] : Frame).map Prod.fst).Nodup) ∧
    ((([("y", [Cell.num 2])] : Frame).map Prod.fst).Nodup) ∧
    (∀ n ∈ ([("x", [Cell.num 1])] : Frame).map Prod.fst,
        n ∉ ([("y", [Cell.num 2])] : Frame).map Prod.fst) ∧
    ((run_pipeline_with_multi_threading
        [fun _ => [("x", [Cell.num 1])], fun _ => [("y", [Cell.num 2])]] []).map Prod.fst).Perm
      ((([("x", [Cell.num 1])] : Frame).map Prod.fst) ++
        (([("y", [Cell.num 2])] : Frame).map Prod.fst)) ∧
    run_pipeline_with_multi_threading
        [fun _ => [("y", [Cell.num 2])], fun _ => [("x", [Cell.num 1])]] []
      = run_pipeline_with_multi_threading
        [fun _ => [("x", [Cell.num 1])], fun _ => [("y", [Cell.num 2])]] [] := by
  have h := run_pipeline_fan_out_union []
    (fun _ => [("x", [Cell.num 1])]) (fun _ => [("y", [Cell.num 2])])
    (by simp) (by simp) (by simp)
  exact ⟨by simp, by simp, by simp, h.1, h.2⟩
